import Mathlib

/-!
Verification of the key/signature/address encoding pipeline of
`two1/bitcoin/crypto.py` (classes `PrivateKey` and `PublicKey`, the DER
point codec, and the address-derivation pipeline).

Conventions of the shallow embedding:
* Python `bytes` values are `List Nat` (each entry a byte value; the code
  only ever produces entries `< 256`, via `% 256`).
* Python `str` values produced or consumed by the Base58Check collaborator
  are also modelled as `List Nat` (a sequence of code points); their internal
  structure is irrelevant to the code under study.
* Python integers are `Nat` where the code only handles nonnegative values
  and `Int` where sign matters (curve coordinates decoded from DER).
* Fallible Python code (exceptions) is modelled with `Except PyErr`.
* The external collaborators fixed by the spec (elliptic-curve engine,
  SHA-256, RIPEMD-160, Base58Check codec) are gathered in an `Engine`
  record and passed explicitly; their contracts appear as hypotheses.
-/

/-- Error taxonomy.  The typed errors come from the spec's error-handling
design (`InvalidScalar`, `UnknownVersion`, `ChecksumError`, `PointNotOnCurve`,
`UnsupportedKeyFormat`, `DecodeError`, `TypeError`); the spec maps the
source's bare `assert` statements to these typed errors.  `nameError`,
`overflowError` and `indexError` model the Python-level exceptions the
source can additionally raise (unbound local name, `int.to_bytes` overflow,
sequence index out of range). -/
inductive PyErr where
  | invalidScalar : PyErr
  | unknownVersion : PyErr
  | checksumError : PyErr
  | pointNotOnCurve : PyErr
  | unsupportedKeyFormat : PyErr
  | decodeError : PyErr
  | typeError : PyErr
  | nameError : String → PyErr
  | overflowError : PyErr
  | indexError : PyErr
  deriving DecidableEq, Repr

/-- `true` exactly on successful results. -/
def exOk {ε α : Type} : Except ε α → Bool
  | .ok _ => true
  | .error _ => false

/-- Python `k.to_bytes(len, 'big')` for `k < 256^len`: fixed-width
big-endian byte string. -/
def beBytes : Nat → Nat → List Nat
  | 0, _ => []
  | len + 1, k => beBytes len (k / 256) ++ [k % 256]

/-- Python `int.from_bytes(bs, 'big')`. -/
def fromBE (bs : List Nat) : Nat :=
  bs.foldl (fun a b => a * 256 + b) 0

/-- Python `k.to_bytes(len, 'big')`, which raises `OverflowError` when `k`
does not fit in `len` bytes. -/
def pyToBytes (k len : Nat) : Except PyErr (List Nat) :=
  if k < 256 ^ len then .ok (beBytes len k) else .error .overflowError

theorem beBytes_length (len k : Nat) : (beBytes len k).length = len := by
  induction len generalizing k with
  | zero => rfl
  | succ n ih => simp [beBytes, ih]

theorem fromBE_append_singleton (l : List Nat) (b : Nat) :
    fromBE (l ++ [b]) = fromBE l * 256 + b := by
  simp [fromBE, List.foldl_append]

theorem fromBE_beBytes (len k : Nat) (h : k < 256 ^ len) :
    fromBE (beBytes len k) = k := by
  induction len generalizing k with
  | zero =>
    interval_cases k
    rfl
  | succ n ih =>
    have hdiv : k / 256 < 256 ^ n := by
      rw [Nat.div_lt_iff_lt_mul (by norm_num)]
      calc k < 256 ^ (n + 1) := h
        _ = 256 ^ n * 256 := by ring
    rw [beBytes, fromBE_append_singleton, ih _ hdiv]
    omega

theorem beBytes_mem_lt (len k : Nat) : ∀ b ∈ beBytes len k, b < 256 := by
  induction len generalizing k with
  | zero => simp [beBytes]
  | succ n ih =>
    intro b hb
    rcases List.mem_append.mp hb with h | h
    · exact ih _ b h
    · simp only [List.mem_singleton] at h
      subst h
      exact Nat.mod_lt _ (by norm_num)

/-! ## DER point/pair codec

The source delegates to `pyasn1` (`encoder.encode` / `decoder.decode` on an
ASN.1 SEQUENCE of two INTEGERs).  `pyasn1` is an external collaborator with
the fixed contract the spec states: standard DER rules, i.e. minimal-length
two's-complement INTEGER contents, with a leading `0x00` inserted when the
top bit of a nonnegative value's minimal encoding is set.  It is modelled
here for the values the code actually passes: nonnegative integers in the
curve's field range, whose encodings keep every length below 128 so that
only short-form DER lengths arise. -/

/-- Minimal big-endian byte string of a nonnegative integer (fuel-indexed
structural recursion; `minimalBE` supplies sufficient fuel). `0` encodes as
the single byte `0x00`, as DER requires. -/
def minimalBEAux : Nat → Nat → List Nat
  | 0, _ => []
  | fuel + 1, k =>
    if k < 256 then [k] else minimalBEAux fuel (k / 256) ++ [k % 256]

/-- Minimal big-endian byte string of a nonnegative integer. -/
def minimalBE (k : Nat) : List Nat :=
  minimalBEAux (k + 1) k

/-- DER INTEGER content octets of a nonnegative integer: the minimal
big-endian encoding, with a leading zero byte whenever the top bit of the
first byte is set (so the signed value stays nonnegative). -/
def derIntContent (k : Nat) : List Nat :=
  let m := minimalBE k
  if 128 ≤ m.headI then 0 :: m else m

/-- A full DER INTEGER element (tag `0x02`, short-form length, content). -/
def derInt (k : Nat) : List Nat :=
  2 :: (derIntContent k).length :: derIntContent k

/-- Affine point record of the curve engine (`ECPointAffine` of the
`two1.crypto.ecdsa` module).  Modelled from the spec: the DER codec uses it
as a plain pair of integers — for curve points and equally for `(r, s)`
signature pairs, "callers are responsible for assigning meaning to the
decoded pair" — so the record itself carries no curve-membership
validation.  Coordinates are `Int` because a DER INTEGER is signed. -/
structure ECPointAffine where
  x : Int
  y : Int
  deriving DecidableEq, Repr

/-- `der_encode_point(pt)`: the DER encoding of the SEQUENCE of the two
INTEGERs `r = pt.x` and `s = pt.y` (tag `0x30`, short-form length, body). -/
def der_encode_point (pt : ECPointAffine) : List Nat :=
  let body := derInt pt.x.toNat ++ derInt pt.y.toNat
  48 :: body.length :: body

/-- Signed interpretation of DER INTEGER content octets (two's
complement: a set top bit of the first octet makes the value negative). -/
def decodeDerInt (content : List Nat) : Except PyErr Int :=
  match content with
  | [] => .error .decodeError
  | b :: _ =>
    if 128 ≤ b then
      .ok ((fromBE content : Int) - 2 ^ (8 * content.length))
    else
      .ok (fromBE content : Int)

/-- Parse one DER INTEGER element at the head of the byte string; return
its value and the remaining bytes. -/
def derReadInt (bs : List Nat) : Except PyErr (Int × List Nat) :=
  match bs with
  | 2 :: l :: rest =>
    if (rest.take l).length = l then
      match decodeDerInt (rest.take l) with
      | .ok v => .ok (v, rest.drop l)
      | .error e => .error e
    else .error .decodeError
  | _ => .error .decodeError

/-- `der_decode_point(curve, der)` on a byte-string argument: parse the
outer SEQUENCE, then the two INTEGER components by position, and build the
`ECPointAffine` (`pyasn1`'s decoder tolerates trailing bytes after the
substrate it consumed, which the source discards via `decode(der)[0]`). -/
def der_decode_point (der : List Nat) : Except PyErr ECPointAffine :=
  match der with
  | 48 :: l :: rest =>
    if (rest.take l).length = l then
      match derReadInt (rest.take l) with
      | .ok (x, r1) =>
        match derReadInt r1 with
        | .ok (y, _) => .ok ⟨x, y⟩
        | .error e => .error e
      | .error e => .error e
    else .error .decodeError
  | _ => .error .decodeError

theorem minimalBEAux_ne_nil (fuel k : Nat) : minimalBEAux (fuel + 1) k ≠ [] := by
  rw [minimalBEAux]
  split
  · simp
  · simp

theorem minimalBE_ne_nil (k : Nat) : minimalBE k ≠ [] :=
  minimalBEAux_ne_nil k k

theorem fromBE_minimalBEAux (fuel k : Nat) (h : k < 256 ^ (fuel + 1)) :
    fromBE (minimalBEAux (fuel + 1) k) = k := by
  induction fuel generalizing k with
  | zero =>
    rw [minimalBEAux]
    rw [if_pos (by simpa using h)]
    simp [fromBE]
  | succ n ih =>
    rw [minimalBEAux]
    split
    · simp [fromBE]
    · rename_i hk
      have hdiv : k / 256 < 256 ^ (n + 1) := by
        rw [Nat.div_lt_iff_lt_mul (by norm_num)]
        calc k < 256 ^ (n + 1 + 1) := h
          _ = 256 ^ (n + 1) * 256 := by ring
      rw [fromBE_append_singleton, ih _ hdiv]
      omega

theorem fromBE_minimalBE (k : Nat) : fromBE (minimalBE k) = k := by
  have h : k < 256 ^ (k + 1) := by
    calc k < 2 ^ k := Nat.lt_two_pow k
      _ ≤ 256 ^ k := Nat.pow_le_pow_left (by norm_num) k
      _ ≤ 256 ^ (k + 1) := Nat.pow_le_pow_right (by norm_num) (Nat.le_succ k)
  exact fromBE_minimalBEAux k k h

theorem fromBE_cons_zero (m : List Nat) : fromBE (0 :: m) = fromBE m := by
  simp [fromBE]

/-- Decoding the INTEGER content octets the encoder produced for a
nonnegative integer recovers exactly that integer: the inserted sign byte
keeps the first octet below `0x80`, so the two's-complement branch never
fires. -/
theorem decodeDerInt_derIntContent (k : Nat) :
    decodeDerInt (derIntContent k) = .ok (k : Int) := by
  rw [derIntContent]
  obtain ⟨b, t, hbt⟩ := List.exists_cons_of_ne_nil (minimalBE_ne_nil k)
  split
  · rename_i hge
    rw [decodeDerInt]
    rw [if_neg (by omega)]
    rw [fromBE_cons_zero, fromBE_minimalBE]
  · rename_i hlt
    rw [hbt] at hlt ⊢
    simp only [List.headI] at hlt
    rw [decodeDerInt]
    rw [if_neg (by omega)]
    rw [← hbt, fromBE_minimalBE]

theorem derReadInt_append (k : Nat) (rest : List Nat) :
    derReadInt (derInt k ++ rest) = .ok ((k : Int), rest) := by
  rw [derInt]
  simp only [List.cons_append]
  rw [derReadInt]
  rw [List.take_left, List.drop_left]
  rw [if_pos rfl, decodeDerInt_derIntContent]

/-- Round trip of the DER pair codec on nonnegative values: decoding the
encoding of `(x, y)` recovers exactly `(x, y)`. -/
theorem der_decode_der_encode (x y : Nat) :
    der_decode_point (der_encode_point ⟨(x : Int), (y : Int)⟩) = .ok ⟨(x : Int), (y : Int)⟩ := by
  rw [der_encode_point]
  simp only [Int.toNat_natCast]
  rw [der_decode_point]
  rw [List.take_length, if_pos rfl]
  rw [derReadInt_append]
  have h2 : derReadInt (derInt y) = .ok ((y : Int), []) := by
    have := derReadInt_append y []
    simpa using this
  dsimp only
  rw [h2]

/-! ## Curve parameters and the external engine -/

/-- secp256k1 field prime `p` (fixed curve parameter supplied by the
`secp256k1()` collaborator, per the spec). -/
def secp256k1_p : Nat :=
  0xFFFFFFFFFFFFFFFFFFFFFFFFFFFFFFFFFFFFFFFFFFFFFFFFFFFFFFFEFFFFFC2F

/-- secp256k1 group order `n` (fixed curve parameter). -/
def secp256k1_n : Nat :=
  0xFFFFFFFFFFFFFFFFFFFFFFFFFFFFFFFEBAAEDCE6AF48A03BBFD25E8CD0364141

/-- `bitcoin_curve.n.bit_length()`: the order `n` occupies exactly 256
bits, so Python's `int.bit_length` returns the constant `256`
(justified by `nBitLen_spec` below). -/
def nBitLen : Nat := 256

theorem nBitLen_spec :
    2 ^ (nBitLen - 1) ≤ secp256k1_n ∧ secp256k1_n < 2 ^ nBitLen := by
  constructor <;> decide

/-- Modelled from the spec: the curve engine's membership test
`bitcoin_curve.is_on_curve` (the `two1.crypto.ecdsa` module is not part of
the source under study).  Per the spec's data model, a valid public-key
point has field-element coordinates (nonnegative integers below the prime
`p`) satisfying the secp256k1 curve equation `y² ≡ x³ + 7 (mod p)`. -/
def isOnCurve (x y : Int) : Bool :=
  decide (0 ≤ x) && decide (x < (secp256k1_p : Int)) &&
  decide (0 ≤ y) && decide (y < (secp256k1_p : Int)) &&
  decide (y * y % (secp256k1_p : Int) = (x * x * x + 7) % (secp256k1_p : Int))

/-- The external collaborators of the source, with the signatures the
source calls them at: the curve engine (`bitcoin_curve.public_key`, which
returns the derived public key packed as a single integer, and
`bitcoin_curve.y_from_x`), the hash primitives `hashlib.sha256` /
`ripemd160`, and the Base58Check codec (`base58.b58encode_check` /
`base58.b58decode_check`).  Their fixed contracts are stated as hypotheses
of the theorems that need them. -/
structure Engine where
  public_key : Nat → Nat
  y_from_x : Nat → Nat
  sha256 : List Nat → List Nat
  ripemd160 : List Nat → List Nat
  b58encode_check : List Nat → List Nat
  b58decode_check : List Nat → Except PyErr (List Nat)

/-- The high 256-to-end bits of a packed public-key integer (the packing is
`(x << n.bit_length()) + y`, per `PublicKey.__int__`). -/
def unpackX (i : Nat) : Int := ((i / 2 ^ nBitLen : Nat) : Int)

/-- The low 256 bits of a packed public-key integer. -/
def unpackY (i : Nat) : Int := ((i % 2 ^ nBitLen : Nat) : Int)

/-- Modelled from the spec: `ECPointAffine.from_int` of the missing
`two1.crypto.ecdsa` module — "recovers an affine point from an integer
encoding (`x` in the high bits, `y` in the low bits per the field-size
split)", the inverse of the `PublicKey.__int__` packing. -/
def ECPointAffine.from_int (i : Nat) : ECPointAffine :=
  ⟨unpackX i, unpackY i⟩

/-- Contract of the curve engine stated by the spec: `publicKeyFromScalar`
returns (the packed form of) a point of the curve. -/
def Engine.validPub (E : Engine) : Prop :=
  ∀ k, isOnCurve (unpackX (E.public_key k)) (unpackY (E.public_key k)) = true

/-! ## PublicKey -/

/-- The `PublicKey` value object: curve point, network tag, and the two
address forms computed eagerly at construction (`self._address`,
`self._b58address`). -/
structure PublicKey where
  point : ECPointAffine
  testnet : Bool
  address : List Nat
  b58address : List Nat
  deriving DecidableEq, Repr

/-- `PublicKey.__bytes__` body: `0x04` followed by the 32-byte big-endian
`x` and `y`.  (Construction validates `0 ≤ x, y < p < 2^256`, so the
Python `to_bytes(32, 'big')` calls cannot overflow on any instance.) -/
def uncompressedBytes (x y : Int) : List Nat :=
  4 :: (beBytes 32 x.toNat ++ beBytes 32 y.toNat)

/-- The record a successful `PublicKey.__init__` builds: the point, the
network tag, and the eagerly derived address data — SHA-256 of the
uncompressed serialization, then RIPEMD-160, then the network version byte
(`0x00` mainnet, `0x6F` testnet) prepended, then Base58Check. -/
def PublicKey.build (E : Engine) (x y : Int) (t : Bool) : PublicKey :=
  let pk_sha := E.sha256 (uncompressedBytes x y)
  let ripe := E.ripemd160 pk_sha
  let version := if t then [0x6F] else [0x00]
  let addr := version ++ ripe
  ⟨⟨x, y⟩, t, addr, E.b58encode_check addr⟩

/-- `PublicKey.__init__(x, y, testnet)`: asserts curve membership (the
spec's `PointNotOnCurve` error), then eagerly derives the address data. -/
def PublicKey.init (E : Engine) (x y : Int) (t : Bool) : Except PyErr PublicKey :=
  if isOnCurve x y then .ok (PublicKey.build E x y t) else .error .pointNotOnCurve

/-- `PublicKey.from_point(p, testnet)`. -/
def PublicKey.from_point (E : Engine) (p : ECPointAffine) (t : Bool) :
    Except PyErr PublicKey :=
  PublicKey.init E p.x p.y t

/-- `PublicKey.from_int(i, testnet)`. -/
def PublicKey.from_int (E : Engine) (i : Nat) (t : Bool) : Except PyErr PublicKey :=
  PublicKey.from_point E (ECPointAffine.from_int i) t

/-- `PublicKey.from_der(d, testnet)` on a byte-string argument. -/
def PublicKey.from_der (E : Engine) (d : List Nat) (t : Bool) : Except PyErr PublicKey := do
  let point ← der_decode_point d
  PublicKey.from_point E point t

/-- `bytes(self)` for a public key. -/
def PublicKey.toBytes (pk : PublicKey) : List Nat :=
  uncompressedBytes pk.point.x pk.point.y

/-- `PublicKey.to_der(self)`. -/
def PublicKey.to_der (pk : PublicKey) : List Nat :=
  der_encode_point pk.point

/-- Python local-variable resolution: reading a name that is not bound in
the local environment raises `NameError` (for locals read before any
assignment, `UnboundLocalError`, a subclass of `NameError`). -/
def localLookup (env : List (String × List Nat)) (name : String) :
    Except PyErr (List Nat) :=
  match env.find? (fun p => p.1 == name) with
  | some p => .ok p.2
  | none => .error (.nameError name)

/-- Python `xs[a:b]` slicing on byte strings. -/
def pySlice (bs : List Nat) (a b : Nat) : List Nat :=
  (bs.drop a).take (b - a)

/-- Python 3 `int(...)` applied to a `bytes` value (the slice `key[0:2]`)
raises `TypeError`: `int()` does not convert byte strings. -/
def pyIntOfBytes (_ : List Nat) : Except PyErr Nat :=
  .error .typeError

/-- `PublicKey.from_bytes(b, testnet)`, translated statement by statement.
The only local name bound on entry is the parameter `b` (and `testnet`);
the body's first statement reads `key_bytes`, and later statements read
`key` — neither is ever assigned — so name resolution is made explicit via
`localLookup`.  The unknown-prefix branch is `return None`, hence the
result type `Option PublicKey`.  The byte-length asserts are the spec's
`UnsupportedKeyFormat` ("wrong byte length") errors. -/
def PublicKey.from_bytes (E : Engine) (b : List Nat) (testnet : Bool) :
    Except PyErr (Option PublicKey) := do
  let env : List (String × List Nat) := [("b", b)]
  let key_bytes ← localLookup env "key_bytes"
  let key_bytes_len := key_bytes.length
  let key ← localLookup env "key"
  let key_type ← pyIntOfBytes (pySlice key 0 2)
  if key_type = 0x04 then
    if key_bytes_len = 65 then do
      let x := fromBE (pySlice key_bytes 1 32)
      let y := fromBE (pySlice key_bytes 32 65)
      let pk ← PublicKey.init E (x : Int) (y : Int) testnet
      return some pk
    else .error .unsupportedKeyFormat
  else if key_type = 0x02 ∨ key_type = 0x03 then
    if key_bytes_len = 33 then do
      let x := fromBE (pySlice key_bytes 1 32)
      let y0 := E.y_from_x x
      let y : Int :=
        if (y0 : Int) % 2 ≠ ((key_type : Int) - 2) then
          (-(y0 : Int)) % (secp256k1_p : Int)
        else (y0 : Int)
      let pk ← PublicKey.init E (x : Int) y testnet
      return some pk
    else .error .unsupportedKeyFormat
  else
    return none

/-! ## PrivateKey -/

/-- The `PrivateKey` value object: scalar, version byte, and the public
key derived eagerly at construction (`self._public_key`). -/
structure PrivateKey where
  key : Nat
  version : Nat
  public_key : PublicKey
  deriving DecidableEq, Repr

/-- `PrivateKey.TESTNET_VERSION = 0xEF`. -/
def PrivateKey.TESTNET_VERSION : Nat := 0xEF

/-- `PrivateKey.MAINNET_VERSION = 0x80`. -/
def PrivateKey.MAINNET_VERSION : Nat := 0x80

/-- `PrivateKey.__init__(k, testnet)`: stores `k` (no range check appears
in the body), selects the version byte by network, and eagerly derives the
public key via `PublicKey.from_int(bitcoin_curve.public_key(k), testnet)`. -/
def PrivateKey.init (E : Engine) (k : Nat) (testnet : Bool) :
    Except PyErr PrivateKey := do
  let pub ← PublicKey.from_int E (E.public_key k) testnet
  return { key := k,
           version := if testnet then PrivateKey.TESTNET_VERSION
                      else PrivateKey.MAINNET_VERSION,
           public_key := pub }

/-- `PrivateKey.from_int(i, testnet)`. -/
def PrivateKey.from_int (E : Engine) (i : Nat) (testnet : Bool) :
    Except PyErr PrivateKey :=
  PrivateKey.init E i testnet

/-- The record a successful `PrivateKey` construction yields (under the
engine contract construction always succeeds; see `from_int_ok`). -/
def privBuild (E : Engine) (k : Nat) (testnet : Bool) : PrivateKey :=
  { key := k,
    version := if testnet then PrivateKey.TESTNET_VERSION
               else PrivateKey.MAINNET_VERSION,
    public_key := PublicKey.build E (unpackX (E.public_key k))
                    (unpackY (E.public_key k)) testnet }

/-- `bytes(self)` for a private key: the version byte followed by
`self.key.to_bytes(32, 'big')`. -/
def PrivateKey.toBytes (pk : PrivateKey) : Except PyErr (List Nat) := do
  let kb ← pyToBytes pk.key 32
  return pk.version :: kb

/-- `PrivateKey.to_b58check(self)`: Base58Check of `bytes(self)`. -/
def PrivateKey.to_b58check (E : Engine) (pk : PrivateKey) :
    Except PyErr (List Nat) := do
  let b ← pk.toBytes
  return E.b58encode_check b

/-- `PrivateKey.from_b58check(private_key)`: Base58Check-decode, read the
version byte (`b58dec[0]`, an `IndexError` on an empty decode), assert it
is one of the two known versions (the spec's `UnknownVersion` error), and
construct from the remaining bytes read big-endian. -/
def PrivateKey.from_b58check (E : Engine) (s : List Nat) :
    Except PyErr PrivateKey := do
  let b58dec ← E.b58decode_check s
  match b58dec with
  | [] => .error .indexError
  | version :: rest =>
    if version = PrivateKey.TESTNET_VERSION ∨ version = PrivateKey.MAINNET_VERSION then
      PrivateKey.init E (fromBE rest) (version == PrivateKey.TESTNET_VERSION)
    else .error .unknownVersion

/-- Modelled from the spec: the contract of Python's
`random.SystemRandom().randrange(a, b)` — a uniformly distributed integer
`r` with `a ≤ r < b`; only the support of the distribution is modelled. -/
def randrange_spec (a b r : Nat) : Prop := a ≤ r ∧ r < b

instance (a b r : Nat) : Decidable (randrange_spec a b r) :=
  inferInstanceAs (Decidable (a ≤ r ∧ r < b))

/-- `PrivateKey.from_random(testnet)` constructs
`PrivateKey(randrange(1, bitcoin_curve.n - 1), testnet)`; the random draw
`r` (constrained by `randrange_spec 1 (secp256k1_n - 1) r`) is made an
explicit parameter. -/
def PrivateKey.from_random (E : Engine) (r : Nat) (testnet : Bool) :
    Except PyErr PrivateKey :=
  PrivateKey.init E r testnet

/-! ## Concrete instances used by the witnesses -/

/-- x-coordinate of the secp256k1 base point `G` (curve parameter). -/
def gen_x : Nat :=
  0x79BE667EF9DCBBAC55A06295CE870B07029BFCDB2DCE28D959F2815B16F81798

/-- y-coordinate of the secp256k1 base point `G`. -/
def gen_y : Nat :=
  0x483ADA7726A3C4655DA4FBFC0E1108A8FD17B448A68554199C47D08FFB10D4B8

/-- `G` packed as `(x << 256) + y`, the integer form `bitcoin_curve.public_key`
returns for the scalar `1` (and every scalar `k ≡ 1 (mod n)`). -/
def packedG : Nat := gen_x * 2 ^ 256 + gen_y

/-- A concrete collaborator instance satisfying, at the inputs the
witnesses use, the contracts the spec fixes: the curve engine returns (the
packed form of) a curve point, the hash primitives return digests of the
standard lengths, and the Base58Check codec is lossless.  The witnesses
only ever exercise the theorems through the stated contracts, so the
instance may be this simple. -/
def testEngine : Engine where
  public_key := fun _ => packedG
  y_from_x := fun _ => 0
  sha256 := fun _ => List.replicate 32 0
  ripemd160 := fun _ => List.replicate 20 0
  b58encode_check := fun bs => bs
  b58decode_check := fun bs => .ok bs

theorem testEngine_validPub : testEngine.validPub := by
  intro k
  show isOnCurve (unpackX packedG) (unpackY packedG) = true
  decide


/-! ## Helper lemmas -/

/-- `PublicKey.from_bytes` resolves the unbound local `key_bytes` in its
first statement, so every call raises `NameError` before anything else. -/
theorem from_bytes_nameError (E : Engine) (b : List Nat) (t : Bool) :
    PublicKey.from_bytes E b t = .error (.nameError "key_bytes") := rfl

theorem init_ok (E : Engine) (x y : Int) (t : Bool) (h : isOnCurve x y = true) :
    PublicKey.init E x y t = .ok (PublicKey.build E x y t) := by
  rw [PublicKey.init, if_pos h]

theorem init_err (E : Engine) (x y : Int) (t : Bool) (h : isOnCurve x y = false) :
    PublicKey.init E x y t = .error .pointNotOnCurve := by
  rw [PublicKey.init]
  rw [if_neg (by simp [h])]

/-- Under the engine contract, `PrivateKey` construction always succeeds
and yields `privBuild` — for every scalar, in range or not. -/
theorem from_int_ok (E : Engine) (k : Nat) (t : Bool) (hE : E.validPub) :
    PrivateKey.from_int E k t = .ok (privBuild E k t) := by
  rw [PrivateKey.from_int, PrivateKey.init]
  rw [PublicKey.from_int, PublicKey.from_point, ECPointAffine.from_int]
  rw [init_ok E _ _ t (hE k)]
  rfl

/-! ## Claims -/

/-- C10: for every input, `PublicKey.from_bytes` raises an unbound-name
error before performing any parsing — its body reads the local names
`key_bytes` and `key`, neither of which is ever assigned from the
parameter `b` — so no input reaches the prefix dispatch or returns a
`PublicKey`. -/
theorem claim_C10 (E : Engine) (b : List Nat) (testnet : Bool) :
    PublicKey.from_bytes E b testnet = .error (.nameError "key_bytes") :=
  from_bytes_nameError E b testnet

/-- C2 (code bug): decoding the uncompressed serialization of a public key
cannot reproduce the point, because `from_bytes` raises `NameError` on its
unbound local `key_bytes` before any parsing.  Evaluated here at the
failing input: the 65-byte uncompressed serialization of the secp256k1
base point on mainnet. -/
theorem claim_C2 :
    PublicKey.from_bytes testEngine
      (uncompressedBytes (gen_x : Int) (gen_y : Int)) false
      = .error (.nameError "key_bytes") :=
  from_bytes_nameError testEngine (uncompressedBytes (gen_x : Int) (gen_y : Int)) false

/-- C3 counterexample: on the 65-byte buffer whose first byte is `0x05`,
`from_bytes` does not fail with `UnsupportedKeyFormat`; it fails with the
unbound-local `NameError` before the prefix is ever examined. -/
theorem claim_C3_counterexample :
    PublicKey.from_bytes testEngine (5 :: List.replicate 64 0) false
        = .error (.nameError "key_bytes") ∧
      PublicKey.from_bytes testEngine (5 :: List.replicate 64 0) false
        ≠ .error .unsupportedKeyFormat := by
  refine ⟨from_bytes_nameError _ _ _, ?_⟩
  rw [from_bytes_nameError]
  simp

/-- C3 (amended): for every byte buffer whose first byte is neither
`0x02`, `0x03` nor `0x04` (for example a 65-byte buffer starting with
`0x05`), `PublicKey.from_bytes` fails — but with the unbound-name error
for `key_bytes`, raised before the prefix is ever examined, not with
`UnsupportedKeyFormat`. -/
theorem claim_C3 (E : Engine) (b0 : Nat) (rest : List Nat) (t : Bool)
    (_h : b0 ≠ 0x02 ∧ b0 ≠ 0x03 ∧ b0 ≠ 0x04) :
    PublicKey.from_bytes E (b0 :: rest) t = .error (.nameError "key_bytes") :=
  from_bytes_nameError E (b0 :: rest) t

/-- C3 witness: the amended claim at the 65-byte buffer whose first byte
is `0x05`. -/
theorem claim_C3_witness :
    (5 ≠ 0x02 ∧ 5 ≠ 0x03 ∧ 5 ≠ 0x04) ∧
      PublicKey.from_bytes testEngine (5 :: List.replicate 64 0) false
        = .error (.nameError "key_bytes") :=
  ⟨by decide, claim_C3 testEngine 5 (List.replicate 64 0) false (by decide)⟩

/-- C1 counterexample: the scalar `n + 1` lies outside `[1, n-1]`, yet
constructing a `PrivateKey` from it succeeds (the constructor performs no
range validation), instead of failing with `InvalidScalar` as claimed. -/
theorem claim_C1_counterexample :
    exOk (PrivateKey.from_int testEngine (secp256k1_n + 1) false) = true ∧
      ¬ secp256k1_n + 1 < secp256k1_n := by
  constructor
  · rw [from_int_ok testEngine _ false testEngine_validPub]
    rfl
  · omega

/-- C1 (amended): `PrivateKey.from_int` / the constructor performs no
range validation at all: under the engine contract it succeeds for every
nonnegative integer `k` — also for `k = 0` and `k ≥ n` — storing `k`
unchecked; no `InvalidScalar` failure exists.  The public key is indeed
derived eagerly at construction, from the curve engine's
`public_key(k)`. -/
theorem claim_C1 (E : Engine) (k : Nat) (t : Bool) (hE : E.validPub) :
    PrivateKey.from_int E k t = .ok (privBuild E k t) ∧
      (privBuild E k t).key = k ∧
      (privBuild E k t).public_key =
        PublicKey.build E (unpackX (E.public_key k)) (unpackY (E.public_key k)) t :=
  ⟨from_int_ok E k t hE, rfl, rfl⟩

/-- C1 witness: the amended claim at the out-of-range scalar `n + 1` on
mainnet, with the concrete collaborator instance. -/
theorem claim_C1_witness :
    PrivateKey.from_int testEngine (secp256k1_n + 1) false
        = .ok (privBuild testEngine (secp256k1_n + 1) false) ∧
      (privBuild testEngine (secp256k1_n + 1) false).key = secp256k1_n + 1 ∧
      (privBuild testEngine (secp256k1_n + 1) false).public_key =
        PublicKey.build testEngine
          (unpackX (testEngine.public_key (secp256k1_n + 1)))
          (unpackY (testEngine.public_key (secp256k1_n + 1))) false :=
  claim_C1 testEngine (secp256k1_n + 1) false testEngine_validPub

/-- C9 counterexample: `n - 1` is a valid scalar, but it is not a possible
outcome of `randrange(1, n - 1)` — the upper bound of Python's `randrange`
is exclusive — so `from_random` can never return it, contrary to the
claimed full range `[1, n-1]`. -/
theorem claim_C9_counterexample :
    ¬ randrange_spec 1 (secp256k1_n - 1) (secp256k1_n - 1) := by
  rw [randrange_spec]
  omega

/-- C9 (amended): `PrivateKey.from_random` draws its scalar from
`randrange(1, n - 1)`, whose outcomes are exactly `[1, n-2]`: every
returned key has `1 ≤ key ≤ n - 2` — so `0` and values `≥ n` indeed never
occur, but the valid scalar `n - 1` is never returned either.  (Only the
support of the uniform draw is modelled.) -/
theorem claim_C9 (E : Engine) (r : Nat) (t : Bool) (hE : E.validPub)
    (hr : randrange_spec 1 (secp256k1_n - 1) r) :
    PrivateKey.from_random E r t = .ok (privBuild E r t) ∧
      1 ≤ (privBuild E r t).key ∧ (privBuild E r t).key < secp256k1_n - 1 := by
  obtain ⟨h1, h2⟩ := hr
  exact ⟨from_int_ok E r t hE, h1, h2⟩

/-- C9 witness: the amended claim at the concrete draw `r = 1`. -/
theorem claim_C9_witness :
    PrivateKey.from_random testEngine 1 false = .ok (privBuild testEngine 1 false) ∧
      1 ≤ (privBuild testEngine 1 false).key ∧
      (privBuild testEngine 1 false).key < secp256k1_n - 1 :=
  claim_C9 testEngine 1 false testEngine_validPub (by constructor <;> decide)

/-- C4: curve membership is an invariant of every `PublicKey` instance:
the constructor fails with `PointNotOnCurve` on every off-curve input, and
every successful construction — through the constructor, `from_point`,
`from_int`, `from_der` or `from_bytes` — yields a point satisfying the
curve equation. -/
theorem claim_C4 :
    (∀ (E : Engine) (x y : Int) (t : Bool),
        isOnCurve x y = false →
          PublicKey.init E x y t = .error .pointNotOnCurve) ∧
    (∀ (E : Engine) (x y : Int) (t : Bool) (pk : PublicKey),
        PublicKey.init E x y t = .ok pk →
          isOnCurve pk.point.x pk.point.y = true) ∧
    (∀ (E : Engine) (p : ECPointAffine) (t : Bool) (pk : PublicKey),
        PublicKey.from_point E p t = .ok pk →
          isOnCurve pk.point.x pk.point.y = true) ∧
    (∀ (E : Engine) (i : Nat) (t : Bool) (pk : PublicKey),
        PublicKey.from_int E i t = .ok pk →
          isOnCurve pk.point.x pk.point.y = true) ∧
    (∀ (E : Engine) (d : List Nat) (t : Bool) (pk : PublicKey),
        PublicKey.from_der E d t = .ok pk →
          isOnCurve pk.point.x pk.point.y = true) ∧
    (∀ (E : Engine) (b : List Nat) (t : Bool) (pk : PublicKey),
        PublicKey.from_bytes E b t = .ok (some pk) →
          isOnCurve pk.point.x pk.point.y = true) := by
  have hinit : ∀ (E : Engine) (x y : Int) (t : Bool) (pk : PublicKey),
      PublicKey.init E x y t = .ok pk →
        isOnCurve pk.point.x pk.point.y = true := by
    intro E x y t pk hok
    by_cases h : isOnCurve x y = true
    · rw [init_ok E x y t h] at hok
      injection hok with h2
      subst h2
      simpa [PublicKey.build] using h
    · rw [init_err E x y t (by simpa using h)] at hok
      exact absurd hok (by simp)
  refine ⟨fun E x y t h => init_err E x y t h, hinit, ?_, ?_, ?_, ?_⟩
  · intro E p t pk hok
    exact hinit E p.x p.y t pk hok
  · intro E i t pk hok
    exact hinit E (unpackX i) (unpackY i) t pk hok
  · intro E d t pk hok
    rw [PublicKey.from_der] at hok
    cases hdec : der_decode_point d with
    | ok pt =>
      rw [hdec] at hok
      exact hinit E pt.x pt.y t pk hok
    | error e =>
      rw [hdec] at hok
      exact absurd hok (by simp [Bind.bind, Except.bind])
  · intro E b t pk hok
    rw [from_bytes_nameError] at hok
    exact absurd hok (by simp)

/-- C4 witness: the off-curve pair `(1, 1)` is rejected with
`PointNotOnCurve`, and the instance built from the on-curve base point
satisfies the curve equation. -/
theorem claim_C4_witness :
    isOnCurve 1 1 = false ∧
      PublicKey.init testEngine 1 1 false = .error .pointNotOnCurve ∧
      isOnCurve (PublicKey.build testEngine (gen_x : Int) (gen_y : Int) false).point.x
        (PublicKey.build testEngine (gen_x : Int) (gen_y : Int) false).point.y = true := by
  refine ⟨by decide, claim_C4.1 testEngine 1 1 false (by decide), ?_⟩
  exact claim_C4.2.1 testEngine (gen_x : Int) (gen_y : Int) false _
    (init_ok testEngine (gen_x : Int) (gen_y : Int) false (by decide))

/-- C5: for every pair of integers within the curve field range,
DER-decoding the DER encoding of the pair yields exactly that pair — the
encoder introduces no spurious sign byte that changes the decoded
magnitude. -/
theorem claim_C5 (x y : Nat) (_hx : x < secp256k1_p) (_hy : y < secp256k1_p) :
    der_decode_point (der_encode_point ⟨(x : Int), (y : Int)⟩)
      = .ok ⟨(x : Int), (y : Int)⟩ :=
  der_decode_der_encode x y

/-- C5 witness: the round trip at the base point coordinates. -/
theorem claim_C5_witness :
    gen_x < secp256k1_p ∧ gen_y < secp256k1_p ∧
      der_decode_point (der_encode_point ⟨(gen_x : Int), (gen_y : Int)⟩)
        = .ok ⟨(gen_x : Int), (gen_y : Int)⟩ :=
  ⟨by decide, by decide, claim_C5 gen_x gen_y (by decide) (by decide)⟩

/-- C6: every public key's address bytes are the network version byte
(`0x00` mainnet, `0x6F` testnet) followed by the RIPEMD-160 of the SHA-256
of the 65-byte uncompressed serialization — 21 bytes whenever RIPEMD-160
returns its standard 20-byte digest — and the Base58 address field is the
Base58Check encoding of those address bytes; both are fields of the
record built at construction. -/
theorem claim_C6 (E : Engine) (x y : Int) (t : Bool) (pk : PublicKey)
    (hok : PublicKey.init E x y t = .ok pk) :
    pk.address = (if t then [0x6F] else [0x00]) ++ E.ripemd160 (E.sha256 pk.toBytes) ∧
      pk.toBytes = 4 :: (beBytes 32 x.toNat ++ beBytes 32 y.toNat) ∧
      pk.toBytes.length = 65 ∧
      ((E.ripemd160 (E.sha256 pk.toBytes)).length = 20 → pk.address.length = 21) ∧
      pk.b58address = E.b58encode_check pk.address := by
  by_cases h : isOnCurve x y = true
  · rw [init_ok E x y t h] at hok
    injection hok with h2
    subst h2
    refine ⟨rfl, rfl, ?_, ?_, rfl⟩
    · simp [PublicKey.toBytes, PublicKey.build, uncompressedBytes, beBytes_length]
    · intro hlen
      simp only [PublicKey.toBytes, PublicKey.build] at hlen
      simp only [PublicKey.build, List.length_append]
      rw [hlen]
      cases t <;> simp
  · rw [init_err E x y t (by simpa using h)] at hok
    exact absurd hok (by simp)

/-- C6 witness: the address pipeline of the instance built from the base
point on mainnet, with the concrete collaborator instance. -/
theorem claim_C6_witness :
    (PublicKey.build testEngine (gen_x : Int) (gen_y : Int) false).address
        = (if false then [0x6F] else [0x00]) ++
          testEngine.ripemd160 (testEngine.sha256
            (PublicKey.build testEngine (gen_x : Int) (gen_y : Int) false).toBytes) ∧
      (PublicKey.build testEngine (gen_x : Int) (gen_y : Int) false).toBytes
        = 4 :: (beBytes 32 (gen_x : Int).toNat ++ beBytes 32 (gen_y : Int).toNat) ∧
      (PublicKey.build testEngine (gen_x : Int) (gen_y : Int) false).toBytes.length = 65 ∧
      ((testEngine.ripemd160 (testEngine.sha256
          (PublicKey.build testEngine (gen_x : Int) (gen_y : Int) false).toBytes)).length = 20 →
        (PublicKey.build testEngine (gen_x : Int) (gen_y : Int) false).address.length = 21) ∧
      (PublicKey.build testEngine (gen_x : Int) (gen_y : Int) false).b58address
        = testEngine.b58encode_check
            (PublicKey.build testEngine (gen_x : Int) (gen_y : Int) false).address :=
  claim_C6 testEngine (gen_x : Int) (gen_y : Int) false
    (PublicKey.build testEngine (gen_x : Int) (gen_y : Int) false)
    (init_ok testEngine (gen_x : Int) (gen_y : Int) false (by decide))

/-- C7: for every valid scalar and network, `bytes(PrivateKey)` is the
version byte followed by the 32-byte big-endian zero-padded scalar. -/
theorem claim_C7 (E : Engine) (k : Nat) (t : Bool) (pk : PrivateKey)
    (hok : PrivateKey.from_int E k t = .ok pk)
    (_h1 : 1 ≤ k) (h2 : k < secp256k1_n) :
    pk.toBytes = .ok ((if t then PrivateKey.TESTNET_VERSION
        else PrivateKey.MAINNET_VERSION) :: beBytes 32 k) ∧
      (beBytes 32 k).length = 32 := by
  have hk : k < 256 ^ 32 := by
    have hn : secp256k1_n < 256 ^ 32 := by decide
    omega
  rw [PrivateKey.from_int, PrivateKey.init] at hok
  cases hpub : PublicKey.from_int E (E.public_key k) t with
  | ok pub =>
    rw [hpub] at hok
    simp only [Bind.bind, Except.bind, pure, Except.pure] at hok
    injection hok with h3
    subst h3
    refine ⟨?_, beBytes_length 32 k⟩
    rw [PrivateKey.toBytes]
    simp only [pyToBytes, if_pos hk]
    rfl
  | error e =>
    rw [hpub] at hok
    exact absurd hok (by simp [Bind.bind, Except.bind])

/-- C7 witness (scenario A of the spec): scalar `1` on mainnet serializes
to `0x80` followed by 31 zero bytes and then `0x01`. -/
theorem claim_C7_witness :
    PrivateKey.toBytes (privBuild testEngine 1 false)
      = .ok (128 :: (List.replicate 31 0 ++ [1])) := by
  have h := claim_C7 testEngine 1 false (privBuild testEngine 1 false)
    (from_int_ok testEngine 1 false testEngine_validPub) (by decide) (by decide)
  rw [h.1]
  rfl

/-- C8: `PrivateKey.from_b58check` maps the decoded version byte `0x80` to
mainnet and `0xEF` to testnet, fails with `UnknownVersion` for any other
version byte, and forms the scalar from the remaining bytes read
big-endian; consequently, for every valid key,
`from_b58check(to_b58check())` reproduces the same key (scalar and
network) whenever the Base58Check codec satisfies its round-trip
contract. -/
theorem claim_C8 :
    (∀ (E : Engine) (s : List Nat) (v : Nat) (rest : List Nat),
        E.b58decode_check s = .ok (v :: rest) →
          PrivateKey.from_b58check E s =
            if v = PrivateKey.TESTNET_VERSION then
              PrivateKey.init E (fromBE rest) true
            else if v = PrivateKey.MAINNET_VERSION then
              PrivateKey.init E (fromBE rest) false
            else .error .unknownVersion) ∧
    (∀ (E : Engine) (k : Nat) (t : Bool),
        E.validPub →
        (∀ bs, E.b58decode_check (E.b58encode_check bs) = .ok bs) →
        1 ≤ k → k < secp256k1_n →
          ∃ s, PrivateKey.to_b58check E (privBuild E k t) = .ok s ∧
            PrivateKey.from_b58check E s = .ok (privBuild E k t)) := by
  have hmap : ∀ (E : Engine) (s : List Nat) (v : Nat) (rest : List Nat),
      E.b58decode_check s = .ok (v :: rest) →
        PrivateKey.from_b58check E s =
          if v = PrivateKey.TESTNET_VERSION then
            PrivateKey.init E (fromBE rest) true
          else if v = PrivateKey.MAINNET_VERSION then
            PrivateKey.init E (fromBE rest) false
          else .error .unknownVersion := by
    intro E s v rest hdec
    rw [PrivateKey.from_b58check]
    simp only [Bind.bind, Except.bind, hdec]
    by_cases hv1 : v = PrivateKey.TESTNET_VERSION
    · rw [if_pos (Or.inl hv1), if_pos hv1]
      have : (v == PrivateKey.TESTNET_VERSION) = true := by
        rw [hv1]
        rfl
      rw [this]
    · by_cases hv2 : v = PrivateKey.MAINNET_VERSION
      · rw [if_pos (Or.inr hv2), if_neg hv1, if_pos hv2]
        have : (v == PrivateKey.TESTNET_VERSION) = false := by
          rw [hv2]
          rfl
        rw [this]
      · rw [if_neg (by tauto), if_neg hv1, if_neg hv2]
  refine ⟨hmap, ?_⟩
  intro E k t hE hcodec h1 h2
  have hk : k < 256 ^ 32 := by
    have hn : secp256k1_n < 256 ^ 32 := by decide
    omega
  have hver : (privBuild E k t).version =
      if t then PrivateKey.TESTNET_VERSION else PrivateKey.MAINNET_VERSION := rfl
  have htb : (privBuild E k t).toBytes =
      .ok ((if t then PrivateKey.TESTNET_VERSION else PrivateKey.MAINNET_VERSION)
        :: beBytes 32 k) := by
    simp only [PrivateKey.toBytes, privBuild, pyToBytes, if_pos hk, Bind.bind,
      Except.bind]
    rfl
  refine ⟨E.b58encode_check
    ((if t then PrivateKey.TESTNET_VERSION else PrivateKey.MAINNET_VERSION)
      :: beBytes 32 k), ?_, ?_⟩
  · rw [PrivateKey.to_b58check]
    simp only [Bind.bind, Except.bind, htb]
    rfl
  · rw [hmap E _ _ _ (hcodec _)]
    rw [fromBE_beBytes 32 k hk]
    cases t
    · simpa using from_int_ok E k false hE
    · simpa using from_int_ok E k true hE

/-- C8 witness: the Base58Check round trip of the key with scalar `1` on
mainnet, with the concrete (lossless) codec instance. -/
theorem claim_C8_witness :
    ∃ s, PrivateKey.to_b58check testEngine (privBuild testEngine 1 false) = .ok s ∧
      PrivateKey.from_b58check testEngine s = .ok (privBuild testEngine 1 false) :=
  claim_C8.2 testEngine 1 false testEngine_validPub (fun _ => rfl)
    (by decide) (by decide)
